import Mathlib

/-!
Verification of the OpenAI-to-CLI request adapter
(`src/adapter/openai-to-cli.ts` together with the data shapes of
`src/types/openai.ts`).

The adapter is a pure, total function from an OpenAI-style chat request
to a CLI input record.  We embed its data model and its four functions
(`MODEL_MAP` lookup, `extractModel`, `extractContent`,
`messagesToPrompt`, `openaiToCli`) shallowly in Lean and prove the
specified properties about them.

Embedding notes:
* JavaScript strings become Lean `String`; `Array#join(sep)` becomes
  `String.intercalate sep` (`join("")` becomes `String.join`), and
  `String#trim()` is embedded as `jsTrim`, an explicit
  drop-leading-and-trailing-whitespace function on the character list,
  because that is exactly what the JS method does on the characters
  appearing here.
* The TypeScript union `string | OpenAIContentPart[]` for message
  content becomes the inductive `MessageContent`.  The source's final
  branch `return String(content)` handles values outside the declared
  union; we model such a value with the constructor
  `MessageContent.other r`, where `r` is the printable textual
  representation that JavaScript's `String(...)` coercion yields for it.
* The TypeScript `switch (msg.role)` has no `default` case, so a role
  value outside the declared union contributes nothing; we model the
  role domain with an extra constructor `Role.other` carrying the
  unrecognized role string, so that this dropping behaviour is
  expressible.
* Optional fields (`user?`, `text?`, …) become `Option`.  The numeric
  generation parameters (`temperature`, …) are never read by the
  adapter; their carrier type is irrelevant, and we use `Option Int`.
* The truthiness test `part.text` in the filter is false exactly when
  `text` is `undefined` or the empty string; `textTruthy` embeds it.
* The anchored, non-global regex replace
  `model.replace(/^claude-code-cli\//, "")` removes one leading
  occurrence of `claude-code-cli/` if present; `stripProvider` embeds it
  on character lists.
* The object-literal lookup `MODEL_MAP[model]` consults the literal's
  own properties (the nine listed keys) and then the prototype chain:
  for a property name of `Object.prototype` (`toString`, `constructor`,
  `valueOf`, `__proto__`, …) it yields a truthy inherited function or
  object even though the literal defines no such key.  `MODEL_MAP`
  models the own-property layer, `MODEL_MAP_runtime` the full runtime
  lookup including those inherited hits, and `extractModelRuntime` the
  value the source's `extractModel` actually returns at runtime: for a
  prototype-chain hit that is the inherited value itself, escaping the
  declared return type `ClaudeModel`.  The Lean `extractModel` is the
  typed idealization matching the source's annotations and comments
  (`: ClaudeModel`, `Record<string, ClaudeModel>`, "Default to opus");
  it agrees with the runtime model at every input whose raw and
  prefix-stripped forms are not `Object.prototype` property names
  (`extractModelRuntime_agrees`).
-/

/-- The closed set of CLI model aliases (`type ClaudeModel`). -/
inductive ClaudeModel where
  | opus
  | sonnet
  | haiku
deriving DecidableEq, Repr

/-- Content-part discriminator (`type: "text" | "image_url"`). -/
inductive PartType where
  | text
  | image_url
deriving DecidableEq, Repr

/-- `OpenAIContentPart` from `src/types/openai.ts`.  The `image_url`
payload is carried but never read by the adapter. -/
structure OpenAIContentPart where
  type : PartType
  text : Option String := none
  image_url : Option String := none
deriving DecidableEq, Repr

/-- The content of a chat message: a plain string, an array of parts, or
(outside the declared TypeScript union) some other value, represented by
the string that JavaScript's `String(...)` coercion produces for it. -/
inductive MessageContent where
  | str (s : String)
  | parts (l : List OpenAIContentPart)
  | other (stringRepr : String)
deriving DecidableEq, Repr

/-- Message roles; `other` carries a role string outside the declared
union `"system" | "user" | "assistant"`. -/
inductive Role where
  | system
  | user
  | assistant
  | other (s : String)
deriving DecidableEq, Repr

/-- `OpenAIChatMessage` from `src/types/openai.ts`. -/
structure OpenAIChatMessage where
  role : Role
  content : MessageContent
deriving DecidableEq, Repr

/-- `OpenAIChatRequest` from `src/types/openai.ts`. -/
structure OpenAIChatRequest where
  model : String
  messages : List OpenAIChatMessage
  stream : Option Bool := none
  temperature : Option Int := none
  max_tokens : Option Int := none
  top_p : Option Int := none
  frequency_penalty : Option Int := none
  presence_penalty : Option Int := none
  user : Option String := none
deriving DecidableEq, Repr

/-- `CliInput` from `src/adapter/openai-to-cli.ts`. -/
structure CliInput where
  prompt : String
  model : ClaudeModel
  sessionId : Option String := none
deriving DecidableEq, Repr

/-- The own-property layer of the object-literal lookup
`MODEL_MAP[model]`: exact match against the nine literal keys.  The JS
runtime lookup additionally consults the prototype chain; that full
behaviour is `MODEL_MAP_runtime` below. -/
def MODEL_MAP (s : String) : Option ClaudeModel :=
  if s = "claude-opus-4" then some ClaudeModel.opus
  else if s = "claude-sonnet-4" then some ClaudeModel.sonnet
  else if s = "claude-haiku-4" then some ClaudeModel.haiku
  else if s = "claude-code-cli/claude-opus-4" then some ClaudeModel.opus
  else if s = "claude-code-cli/claude-sonnet-4" then some ClaudeModel.sonnet
  else if s = "claude-code-cli/claude-haiku-4" then some ClaudeModel.haiku
  else if s = "opus" then some ClaudeModel.opus
  else if s = "sonnet" then some ClaudeModel.sonnet
  else if s = "haiku" then some ClaudeModel.haiku
  else none

/-- The provider-namespace prefix appearing in the anchored regex
`/^claude-code-cli\//`. -/
def providerNamespace : String := "claude-code-cli/"

/-- `model.replace(/^claude-code-cli\//, "")`: remove one leading
occurrence of the provider prefix if present, else leave unchanged. -/
def stripProvider (s : String) : String :=
  if providerNamespace.data.isPrefixOf s.data then
    String.mk (s.data.drop providerNamespace.data.length)
  else s

/-- `extractModel` from `src/adapter/openai-to-cli.ts`: direct table
lookup, then lookup after prefix stripping, then default `opus`.  This
is the typed idealization over the own-property layer `MODEL_MAP`,
matching the source's declared return type and its "Default to opus"
comment; the actual runtime value, which differs exactly at
`Object.prototype` property names, is `extractModelRuntime` below. -/
def extractModel (model : String) : ClaudeModel :=
  match MODEL_MAP model with
  | some m => m
  | none =>
    match MODEL_MAP (stripProvider model) with
    | some m => m
    | none => ClaudeModel.opus

/-- Property names inherited from `Object.prototype` in a standard JS
runtime: looking any of these up on the `MODEL_MAP` object literal
finds a truthy inherited value (a built-in function, or the
`Object.prototype` object itself for `__proto__`) even though the
literal defines no such own key. -/
def objectProtoProps : List String :=
  ["constructor", "hasOwnProperty", "isPrototypeOf", "propertyIsEnumerable",
   "toLocaleString", "toString", "valueOf", "__proto__",
   "__defineGetter__", "__defineSetter__", "__lookupGetter__", "__lookupSetter__"]

/-- Outcome of the runtime property lookup `MODEL_MAP[s]`: an own value
(one of the nine mapped aliases), a truthy value inherited from
`Object.prototype` (recorded by the property name looked up), or
`undefined`. -/
inductive JsLookup where
  | ownValue (m : ClaudeModel)
  | inheritedValue (name : String)
  | undef
deriving DecidableEq, Repr

/-- The full JS runtime semantics of `MODEL_MAP[s]`: own properties
first, then the prototype chain, else `undefined`. -/
def MODEL_MAP_runtime (s : String) : JsLookup :=
  match MODEL_MAP s with
  | some m => JsLookup.ownValue m
  | none =>
    if s ∈ objectProtoProps then JsLookup.inheritedValue s else JsLookup.undef

/-- The value `extractModel` actually returns at runtime: either one of
the alias strings (a `ClaudeModel`), or a truthy value inherited from
`Object.prototype` that slipped through the `if (MODEL_MAP[model])`
truthiness guard. -/
inductive JsModelResult where
  | alias (m : ClaudeModel)
  | inheritedValue (name : String)
deriving DecidableEq, Repr

/-- Runtime semantics of `extractModel`: `if (MODEL_MAP[model])` passes
for every non-`undefined` lookup result, because own values are the
non-empty alias strings and all inherited hits are truthy functions or
objects, so a prototype-chain hit is returned as-is; only when both the
raw and the prefix-stripped lookups are `undefined` does the function
fall through to the default `"opus"`. -/
def extractModelRuntime (model : String) : JsModelResult :=
  match MODEL_MAP_runtime model with
  | JsLookup.ownValue m => JsModelResult.alias m
  | JsLookup.inheritedValue n => JsModelResult.inheritedValue n
  | JsLookup.undef =>
    match MODEL_MAP_runtime (stripProvider model) with
    | JsLookup.ownValue m => JsModelResult.alias m
    | JsLookup.inheritedValue n => JsModelResult.inheritedValue n
    | JsLookup.undef => JsModelResult.alias ClaudeModel.opus

/-- JavaScript truthiness of the optional `text` payload: false exactly
for `undefined` and for the empty string. -/
def textTruthy : Option String → Bool
  | some t => t != ""
  | none => false

/-- `extractContent` from `src/adapter/openai-to-cli.ts`: a string is
used verbatim; an array is filtered to truthy text parts whose payloads
are concatenated with `join("")`; anything else is coerced to its
textual representation by `String(content)`. -/
def extractContent : MessageContent → String
  | MessageContent.str s => s
  | MessageContent.parts l =>
      String.join
        ((l.filter (fun part => part.type = PartType.text && textTruthy part.text)).map
          (fun part => part.text.getD ""))
  | MessageContent.other r => r

/-- Characters removed by JavaScript `String#trim()` (the ASCII
whitespace subset; the adapter never produces the exotic Unicode
spaces). -/
def jsWhitespace (c : Char) : Bool :=
  c = ' ' || c = '\t' || c = '\n' || c = '\r' || c = '\x0b' || c = '\x0c'

/-- JavaScript `String#trim()`: drop leading and trailing whitespace. -/
def jsTrim (s : String) : String :=
  String.mk (((s.data.dropWhile jsWhitespace).reverse.dropWhile jsWhitespace).reverse)

/-- The fragment one message pushes onto `parts` in the `switch` of
`messagesToPrompt`; `none` for a role outside the three handled cases
(the `switch` has no `default`). -/
def fragment (msg : OpenAIChatMessage) : Option String :=
  let text := extractContent msg.content
  match msg.role with
  | Role.system => some ("<system>\n" ++ text ++ "\n</system>\n")
  | Role.user => some text
  | Role.assistant => some ("<previous_response>\n" ++ text ++ "\n</previous_response>\n")
  | Role.other _ => none

/-- `messagesToPrompt` from `src/adapter/openai-to-cli.ts`: collect each
message's fragment in order, `join("\n")`, then `trim()`. -/
def messagesToPrompt (messages : List OpenAIChatMessage) : String :=
  jsTrim (String.intercalate "\n" (messages.filterMap fragment))

/-- `openaiToCli` from `src/adapter/openai-to-cli.ts`. -/
def openaiToCli (request : OpenAIChatRequest) : CliInput :=
  { prompt := messagesToPrompt request.messages
    model := extractModel request.model
    sessionId := request.user }

/-- Spec-side description of content extraction from a part list (claim
C3): the payloads of exactly those parts whose type is `text` and whose
payload is defined and non-empty, in sequence order. -/
def selectedTextPayloads (l : List OpenAIContentPart) : List String :=
  l.filterMap (fun part =>
    match part.text with
    | some t => if part.type = PartType.text ∧ t ≠ "" then some t else none
    | none => none)

/-- Every string at which `MODEL_MAP` is defined is one of its nine
literal keys. -/
theorem MODEL_MAP_cases (m : String) (a : ClaudeModel) (h : MODEL_MAP m = some a) :
    m = "claude-opus-4" ∨ m = "claude-sonnet-4" ∨ m = "claude-haiku-4" ∨
    m = "claude-code-cli/claude-opus-4" ∨ m = "claude-code-cli/claude-sonnet-4" ∨
    m = "claude-code-cli/claude-haiku-4" ∨ m = "opus" ∨ m = "sonnet" ∨ m = "haiku" := by
  unfold MODEL_MAP at h
  by_cases h1 : m = "claude-opus-4"
  · tauto
  rw [if_neg h1] at h
  by_cases h2 : m = "claude-sonnet-4"
  · tauto
  rw [if_neg h2] at h
  by_cases h3 : m = "claude-haiku-4"
  · tauto
  rw [if_neg h3] at h
  by_cases h4 : m = "claude-code-cli/claude-opus-4"
  · tauto
  rw [if_neg h4] at h
  by_cases h5 : m = "claude-code-cli/claude-sonnet-4"
  · tauto
  rw [if_neg h5] at h
  by_cases h6 : m = "claude-code-cli/claude-haiku-4"
  · tauto
  rw [if_neg h6] at h
  by_cases h7 : m = "opus"
  · tauto
  rw [if_neg h7] at h
  by_cases h8 : m = "sonnet"
  · tauto
  rw [if_neg h8] at h
  by_cases h9 : m = "haiku"
  · tauto
  rw [if_neg h9] at h
  exact Option.noConfusion h

/-- The typed idealization behaves as the source's annotations and
comments intend: every key of the fixed table resolves to its
associated alias, the same key with a leading "claude-code-cli/"
prepended resolves to the same alias, and any string at which the
own-property layer is undefined directly and after prefix stripping
resolves to the default alias opus.  (At runtime the last conjunct
additionally requires the string not to be an `Object.prototype`
property name; see `extractModelRuntime_defaults_bug`.) -/
theorem extractModel_table_and_default :
    (∀ (m : String) (a : ClaudeModel), MODEL_MAP m = some a →
      extractModel m = a ∧ extractModel ("claude-code-cli/" ++ m) = a) ∧
    (∀ s : String, MODEL_MAP s = none → MODEL_MAP (stripProvider s) = none →
      extractModel s = ClaudeModel.opus) := by
  constructor
  · intro m a h
    constructor
    · unfold extractModel
      rw [h]
    · rcases MODEL_MAP_cases m a h with rfl | rfl | rfl | rfl | rfl | rfl | rfl | rfl | rfl
      · exact (by decide : extractModel ("claude-code-cli/" ++ "claude-opus-4") =
            ClaudeModel.opus).trans (Option.some.inj
          ((by decide : MODEL_MAP "claude-opus-4" = some ClaudeModel.opus).symm.trans h))
      · exact (by decide : extractModel ("claude-code-cli/" ++ "claude-sonnet-4") =
            ClaudeModel.sonnet).trans (Option.some.inj
          ((by decide : MODEL_MAP "claude-sonnet-4" = some ClaudeModel.sonnet).symm.trans h))
      · exact (by decide : extractModel ("claude-code-cli/" ++ "claude-haiku-4") =
            ClaudeModel.haiku).trans (Option.some.inj
          ((by decide : MODEL_MAP "claude-haiku-4" = some ClaudeModel.haiku).symm.trans h))
      · exact (by decide : extractModel ("claude-code-cli/" ++ "claude-code-cli/claude-opus-4") =
            ClaudeModel.opus).trans (Option.some.inj
          ((by decide : MODEL_MAP "claude-code-cli/claude-opus-4" =
            some ClaudeModel.opus).symm.trans h))
      · exact (by decide : extractModel ("claude-code-cli/" ++ "claude-code-cli/claude-sonnet-4") =
            ClaudeModel.sonnet).trans (Option.some.inj
          ((by decide : MODEL_MAP "claude-code-cli/claude-sonnet-4" =
            some ClaudeModel.sonnet).symm.trans h))
      · exact (by decide : extractModel ("claude-code-cli/" ++ "claude-code-cli/claude-haiku-4") =
            ClaudeModel.haiku).trans (Option.some.inj
          ((by decide : MODEL_MAP "claude-code-cli/claude-haiku-4" =
            some ClaudeModel.haiku).symm.trans h))
      · exact (by decide : extractModel ("claude-code-cli/" ++ "opus") =
            ClaudeModel.opus).trans (Option.some.inj
          ((by decide : MODEL_MAP "opus" = some ClaudeModel.opus).symm.trans h))
      · exact (by decide : extractModel ("claude-code-cli/" ++ "sonnet") =
            ClaudeModel.sonnet).trans (Option.some.inj
          ((by decide : MODEL_MAP "sonnet" = some ClaudeModel.sonnet).symm.trans h))
      · exact (by decide : extractModel ("claude-code-cli/" ++ "haiku") =
            ClaudeModel.haiku).trans (Option.some.inj
          ((by decide : MODEL_MAP "haiku" = some ClaudeModel.haiku).symm.trans h))
  · intro s h1 h2
    unfold extractModel
    rw [h1, h2]

/-- The idealization evaluated at concrete inputs: the key
"claude-sonnet-4", its prefixed form, and the unknown identifier
"gpt-4". -/
theorem extractModel_table_and_default_witness :
    extractModel "claude-sonnet-4" = ClaudeModel.sonnet ∧
    extractModel "claude-code-cli/claude-sonnet-4" = ClaudeModel.sonnet ∧
    extractModel "gpt-4" = ClaudeModel.opus := by
  have h := extractModel_table_and_default
  have h1 := h.1 "claude-sonnet-4" ClaudeModel.sonnet (by decide)
  have h2 := h.2 "gpt-4" (by decide) (by decide)
  exact ⟨h1.1, h1.2, h2⟩

/-- The typed idealization is total and always lands in the closed set
\x7bopus, sonnet, haiku\x7d, and so does the model field of every CLI
input it induces through openaiToCli.  (The runtime value escapes the
set at `Object.prototype` property names; see
`extractModelRuntime_escapes_closed_set`.) -/
theorem extractModel_closed_set :
    (∀ s : String, extractModel s = ClaudeModel.opus ∨ extractModel s = ClaudeModel.sonnet ∨
      extractModel s = ClaudeModel.haiku) ∧
    (∀ request : OpenAIChatRequest,
      (openaiToCli request).model = ClaudeModel.opus ∨
      (openaiToCli request).model = ClaudeModel.sonnet ∨
      (openaiToCli request).model = ClaudeModel.haiku) := by
  have key : ∀ m : ClaudeModel,
      m = ClaudeModel.opus ∨ m = ClaudeModel.sonnet ∨ m = ClaudeModel.haiku := by
    intro m
    cases m
    · exact Or.inl rfl
    · exact Or.inr (Or.inl rfl)
    · exact Or.inr (Or.inr rfl)
  exact ⟨fun s => key (extractModel s), fun request => key (openaiToCli request).model⟩

/-- The map-over-filter of the source equals the spec-side selection of
text payloads (claim C3 helper). -/
theorem selected_eq (l : List OpenAIContentPart) :
    (l.filter (fun part => part.type = PartType.text && textTruthy part.text)).map
      (fun part => part.text.getD "") = selectedTextPayloads l := by
  induction l with
  | nil => rfl
  | cons p l ih =>
    rcases p with ⟨ty, txt, img⟩
    cases ty
    · rcases txt with _ | t
      · simpa [selectedTextPayloads, textTruthy, List.filter_cons, List.filterMap_cons] using ih
      · by_cases ht : t = ""
        · subst ht
          simpa [selectedTextPayloads, textTruthy, List.filter_cons, List.filterMap_cons] using ih
        · simpa [selectedTextPayloads, textTruthy, List.filter_cons, List.filterMap_cons, ht]
            using ih
    · rcases txt with _ | t
      · simpa [selectedTextPayloads, textTruthy, List.filter_cons, List.filterMap_cons] using ih
      · simpa [selectedTextPayloads, textTruthy, List.filter_cons, List.filterMap_cons] using ih

/-- C3: extracting from a part list concatenates, in order and with no
separator, the payloads of exactly the defined non-empty text parts;
image parts contribute nothing, as in the [text "a", image, text "b"]
example. -/
theorem extractContent_parts_spec :
    (∀ l : List OpenAIContentPart,
      extractContent (MessageContent.parts l) = String.join (selectedTextPayloads l)) ∧
    extractContent (MessageContent.parts
      [{ type := PartType.text, text := some "a" },
       { type := PartType.image_url, image_url := some "http://img" },
       { type := PartType.text, text := some "b" }]) = "ab" := by
  constructor
  · intro l
    simp only [extractContent]
    rw [selected_eq]
  · decide

/-- C4: the fragment a message contributes is fixed by its role: system
wraps in a system block with trailing newline, user passes the text
through unchanged, assistant wraps in a previous_response block, and any
other role contributes no fragment at all. -/
theorem fragment_by_role :
    ∀ (c : MessageContent) (r : String),
      fragment { role := Role.system, content := c } =
        some ("<system>\n" ++ extractContent c ++ "\n</system>\n") ∧
      fragment { role := Role.user, content := c } = some (extractContent c) ∧
      fragment { role := Role.assistant, content := c } =
        some ("<previous_response>\n" ++ extractContent c ++ "\n</previous_response>\n") ∧
      fragment { role := Role.other r, content := c } = none := by
  intro c r
  exact ⟨rfl, rfl, rfl, rfl⟩

/-- C5: the prompt is the fragments joined in message order with one
newline then trimmed; the empty sequence gives the empty string; and
[system "S", user "U"] gives the system block, a blank-line gap, then
"U", a string with no leading or trailing whitespace. -/
theorem messagesToPrompt_assembly :
    (∀ messages : List OpenAIChatMessage,
      messagesToPrompt messages =
        jsTrim (String.intercalate "\n" (messages.filterMap fragment))) ∧
    messagesToPrompt [] = "" ∧
    messagesToPrompt [{ role := Role.system, content := MessageContent.str "S" },
                      { role := Role.user, content := MessageContent.str "U" }] =
      "<system>\nS\n</system>" ++ "\n\n" ++ "U" ∧
    jsTrim ("<system>\nS\n</system>" ++ "\n\n" ++ "U") =
      "<system>\nS\n</system>" ++ "\n\n" ++ "U" := by
  refine ⟨fun messages => rfl, rfl, by decide, by decide⟩

/-- C6: openaiToCli is exactly the record built from the flattened
messages, the resolved model, and the user field copied through
unchanged; a present user "abc" becomes sessionId "abc" and an absent
user stays absent. -/
theorem openaiToCli_composition :
    (∀ request : OpenAIChatRequest,
      openaiToCli request =
        { prompt := messagesToPrompt request.messages,
          model := extractModel request.model,
          sessionId := request.user }) ∧
    (∀ request : OpenAIChatRequest, request.user = some "abc" →
      (openaiToCli request).sessionId = some "abc") ∧
    (∀ request : OpenAIChatRequest, request.user = none →
      (openaiToCli request).sessionId = none) := by
  refine ⟨fun request => rfl, fun request h => h, fun request h => h⟩

/-- Witness for C6 at concrete requests with user present and absent. -/
theorem openaiToCli_composition_witness :
    (openaiToCli { model := "opus", messages := [], user := some "abc" }).sessionId =
      some "abc" ∧
    (openaiToCli { model := "opus", messages := [] }).sessionId = none := by
  exact ⟨openaiToCli_composition.2.1 _ rfl, openaiToCli_composition.2.2 _ rfl⟩

/-- C7: conversion reads only the model, messages and user fields: two
requests agreeing on those three fields produce identical CLI inputs,
whatever their other fields are; determinism on structurally equal
inputs is the special case of equal requests. -/
theorem openaiToCli_reads_only_three_fields :
    ∀ r1 r2 : OpenAIChatRequest,
      r1.model = r2.model → r1.messages = r2.messages → r1.user = r2.user →
      openaiToCli r1 = openaiToCli r2 := by
  intro r1 r2 hm hms hu
  unfold openaiToCli
  rw [hm, hms, hu]

/-- Witness for C7: two requests differing in temperature, stream,
max_tokens, top_p and both penalty fields convert identically. -/
theorem openaiToCli_reads_only_three_fields_witness :
    openaiToCli { model := "sonnet",
                  messages := [{ role := Role.user, content := MessageContent.str "hi" }],
                  temperature := some 1, stream := some true, max_tokens := some 5 } =
      openaiToCli { model := "sonnet",
                    messages := [{ role := Role.user, content := MessageContent.str "hi" }],
                    top_p := some 2, presence_penalty := some 3,
                    frequency_penalty := some 4 } :=
  openaiToCli_reads_only_three_fields _ _ rfl rfl rfl

/-- C8: content that is neither a string nor a part list is coerced to
its printable textual representation instead of raising an error, so no
content shape aborts extraction. -/
theorem extractContent_other_coerces :
    ∀ stringRepr : String,
      extractContent (MessageContent.other stringRepr) = stringRepr :=
  fun _ => rfl

/-- C9: a part list with no defined, non-empty text part extracts to the
empty string, and a lone system message over such a list still emits its
wrapper block with an empty body, flattening to "<system>\n\n</system>"
after trimming. -/
theorem extractContent_no_selected_parts :
    (∀ l : List OpenAIContentPart,
      (∀ p ∈ l, ¬(p.type = PartType.text ∧ textTruthy p.text = true)) →
      extractContent (MessageContent.parts l) = "") ∧
    messagesToPrompt [{ role := Role.system, content := MessageContent.parts (
      [{ type := PartType.image_url, image_url := some "http://img" },
       { type := PartType.text, text := some "" }]) }] =
      "<system>\n\n</system>" := by
  constructor
  · intro l h
    simp only [extractContent]
    have hf : l.filter (fun part => part.type = PartType.text && textTruthy part.text) = [] := by
      rw [List.filter_eq_nil_iff]
      intro p hp
      simp only [Bool.and_eq_true, decide_eq_true_eq, not_and]
      intro h1 h2
      exact h p hp ⟨h1, h2⟩
    rw [hf]
    rfl
  · decide

/-- Witness for C9: a list of one image part and one empty text part
extracts to the empty string. -/
theorem extractContent_no_selected_parts_witness :
    extractContent (MessageContent.parts
      [{ type := PartType.image_url, image_url := some "http://img" },
       { type := PartType.text, text := some "" }]) = "" :=
  extractContent_no_selected_parts.1 _ (by decide)

/-- C10: an empty user message still contributes an empty fragment, so
[user "a", user "", user "b"] flattens to "a\n\nb" with a blank line,
while dropping the middle message (as an unknown role is dropped) gives
"a\nb", a different string. -/
theorem messagesToPrompt_empty_user_fragment :
    messagesToPrompt [{ role := Role.user, content := MessageContent.str "a" },
                      { role := Role.user, content := MessageContent.str "" },
                      { role := Role.user, content := MessageContent.str "b" }] = "a\n\nb" ∧
    messagesToPrompt [{ role := Role.user, content := MessageContent.str "a" },
                      { role := Role.user, content := MessageContent.str "b" }] = "a\nb" ∧
    messagesToPrompt [{ role := Role.user, content := MessageContent.str "a" },
                      { role := Role.other "tool", content := MessageContent.str "" },
                      { role := Role.user, content := MessageContent.str "b" }] = "a\nb" ∧
    ("a\n\nb" : String) ≠ "a\nb" := by
  refine ⟨by decide, by decide, by decide, by decide⟩

/-- C1: the defaults-to-opus conjunct fails on the program: "toString"
matches no table key directly or after prefix stripping, yet the
runtime lookup finds the truthy inherited Object.prototype.toString and
the source returns that inherited value instead of the default alias
opus; "claude-code-cli/toString" hits the same bug through the second,
prefix-stripped lookup. -/
theorem extractModelRuntime_defaults_bug :
    MODEL_MAP "toString" = none ∧
    MODEL_MAP (stripProvider "toString") = none ∧
    extractModelRuntime "toString" = JsModelResult.inheritedValue "toString" ∧
    extractModelRuntime "toString" ≠ JsModelResult.alias ClaudeModel.opus ∧
    extractModelRuntime "claude-code-cli/toString" =
      JsModelResult.inheritedValue "toString" := by
  refine ⟨by decide, by decide, by decide, by decide, by decide⟩

/-- C2: the closed-set invariant fails on the program: at "__proto__"
the runtime lookup finds the truthy inherited Object.prototype object,
so the value returned is no member of \x7bopus, sonnet, haiku\x7d, and
the model field of the produced CLI input is the raw inherited value
rather than an alias. -/
theorem extractModelRuntime_escapes_closed_set :
    extractModelRuntime "__proto__" = JsModelResult.inheritedValue "__proto__" ∧
    extractModelRuntime "__proto__" ≠ JsModelResult.alias ClaudeModel.opus ∧
    extractModelRuntime "__proto__" ≠ JsModelResult.alias ClaudeModel.sonnet ∧
    extractModelRuntime "__proto__" ≠ JsModelResult.alias ClaudeModel.haiku := by
  refine ⟨by decide, by decide, by decide, by decide⟩

/-- Away from Object.prototype property names (raw and prefix-stripped),
the runtime lookup agrees with the typed idealization, so the approved
theorems about extractModel describe the program on that domain. -/
theorem extractModelRuntime_agrees (s : String)
    (h1 : s ∉ objectProtoProps) (h2 : stripProvider s ∉ objectProtoProps) :
    extractModelRuntime s = JsModelResult.alias (extractModel s) := by
  unfold extractModelRuntime extractModel MODEL_MAP_runtime
  cases hm : MODEL_MAP s with
  | some m => rfl
  | none =>
    rw [if_neg h1]
    cases hm2 : MODEL_MAP (stripProvider s) with
    | some m => rfl
    | none => rw [if_neg h2]
